import Mathlib

/-!
Verification of the contextio mitmproxy addon (`packages/cli/mitm_addon.py`).

The addon observes LLM API traffic: on each completed flow it classifies the
destination host to a provider, refines the API wire format from the URL path,
redacts headers to a fixed allowlist, assembles a capture record and persists
it atomically (write to a hidden temp file, then rename).  A second deployment
mode rewrites request destinations through a forwarding proxy.

The Python code is shallowly embedded below: pure helpers become Lean
functions; the module-global sequence counter becomes explicit state threading;
operations that can raise in Python (text/JSON decoding, filesystem calls) are
passed in as `Except`/`Bool`-valued behaviours, and each `try/except` of the
source appears as the corresponding match that absorbs the error.
-/

/-! ## String utilities (models of the Python `str` operations used) -/

/-- ASCII lowercasing of one character, the effect of Python `str.lower` on the
ASCII range (all host patterns in the addon are ASCII). -/
def lowerChar (c : Char) : Char :=
  if 65 ≤ c.toNat ∧ c.toNat ≤ 90 then Char.ofNat (c.toNat + 32) else c

/-- Model of Python `str.lower` (ASCII range). -/
def lowerStr (s : String) : String := String.mk (s.data.map lowerChar)

/-- Model of Python `str.endswith`. -/
def strEndsWith (s suffix : String) : Bool :=
  suffix.data.isSuffixOf s.data

/-- Model of Python substring containment (`pat in s`). -/
def strContains (s pat : String) : Bool :=
  (s.data.tails).any fun t => pat.data.isPrefixOf t

/-! ## Provider classification (`LLM_HOSTS`, `_match_provider`) -/

/-- The `LLM_HOSTS` table of `mitm_addon.py`: hostname pattern → provider,
in the dictionary's insertion order. -/
def LLM_HOSTS : List (String × String) := [
  ("api.anthropic.com", "anthropic"),
  ("api.openai.com", "openai"),
  ("chatgpt.com", "chatgpt"),
  ("generativelanguage.googleapis.com", "gemini"),
  ("models.inference.ai.azure.com", "openai"),
  ("api.individual.githubcopilot.com", "openai"),
  ("api.business.githubcopilot.com", "openai"),
  ("api.enterprise.githubcopilot.com", "openai"),
  ("openrouter.ai", "openrouter"),
  ("opencode.ai", "opencode")]

/-- The per-rule test of `_match_provider`:
`host == pattern or host.endswith("." + pattern)`. -/
def hostMatchesPattern (host pat : String) : Bool :=
  host == pat || strEndsWith host ("." ++ pat)

/-- Function `_match_provider(host)`: lowercase the host, scan `LLM_HOSTS` in order and
return the provider of the first rule whose pattern matches, else `none`. -/
def matchProvider (host : String) : Option String :=
  let h := lowerStr host
  (LLM_HOSTS.find? fun rule => hostMatchesPattern h rule.1).map (·.2)

/-! ## API-format classification (`_detect_api_format`) -/

/-- Function `_detect_api_format(path, provider)`. -/
def detectApiFormat (path provider : String) : String :=
  if provider = "anthropic" then
    if strContains path "/messages" then "anthropic-messages" else "unknown"
  else if provider = "openai" ∨ provider = "chatgpt" then
    if strContains path "/chat/completions" then "chat-completions"
    else if strContains path "/responses" then "responses"
    else if strContains path "/backend-api/" then "chatgpt-backend"
    else if strContains path "/mcp/" then "mcp"
    else "unknown"
  else if provider = "openrouter" ∨ provider = "opencode" then
    if strContains path "/chat/completions" then "chat-completions"
    else if strContains path "/responses" then "responses"
    else "unknown"
  else if provider = "gemini" then "gemini"
  else "unknown"

/-! ## Header redaction (`_safe_headers`) -/

/-- The hardcoded allowlist of `_safe_headers`. -/
def allowedHeaders : List String := [
  "content-type",
  "content-encoding",
  "accept",
  "user-agent",
  "x-request-id",
  "openai-beta",
  "anthropic-version",
  "x-ratelimit-limit-requests",
  "x-ratelimit-remaining-requests",
  "x-ratelimit-limit-tokens",
  "x-ratelimit-remaining-tokens",
  "openai-processing-ms",
  "anthropic-ratelimit-requests-limit",
  "anthropic-ratelimit-requests-remaining"]

/-- Python `dict` assignment `out[k] = v`: replace the value in place if the
key is present, otherwise append the binding. -/
def dictInsert (d : List (String × String)) (k v : String) :
    List (String × String) :=
  if d.any fun e => e.1 = k then
    d.map fun e => if e.1 = k then (k, v) else e
  else d ++ [(k, v)]

/-- One iteration of the `_safe_headers` loop over `headers.items()`. -/
def safeHeadersStep (out : List (String × String)) (e : String × String) :
    List (String × String) :=
  if lowerStr e.1 ∈ allowedHeaders then dictInsert out e.1 e.2 else out

/-- Function `_safe_headers(headers)`: keep only entries whose lowercased name is in the
allowlist, building a dict in iteration order.  Headers are modelled as the
ordered (name, value) pairs that `headers.items()` yields. -/
def safeHeaders (headers : List (String × String)) : List (String × String) :=
  headers.foldl safeHeadersStep []

/-- mitmproxy `Headers.get(name, default)`: case-insensitive lookup of the
first matching header. -/
def headerGet (headers : List (String × String)) (name default : String) :
    String :=
  match headers.find? (fun e => lowerStr e.1 = lowerStr name) with
  | some e => e.2
  | none => default

/-! ## Decimal rendering and zero padding -/

def digitChar (d : Nat) : Char := Char.ofNat (48 + d)

/-- Fuel-based digit accumulation (structurally recursive so that the kernel
can evaluate it). -/
def natDigitsAux : Nat → Nat → List Char → List Char
  | 0, _, acc => acc
  | fuel + 1, n, acc =>
    if n < 10 then digitChar n :: acc
    else natDigitsAux fuel (n / 10) (digitChar (n % 10) :: acc)

/-- Decimal rendering of a nonnegative integer, the effect of Python `str`. -/
def natStr (n : Nat) : String := String.mk (natDigitsAux (n + 1) n [])

/-- Python `f"{n:06d}"`. -/
def pad6 (n : Nat) : String :=
  let s := natStr n
  if s.length < 6 then String.mk (List.replicate (6 - s.length) '0') ++ s else s

def pad2 (n : Nat) : String :=
  let s := natStr n
  if s.length < 2 then "0" ++ s else s

def pad4 (n : Nat) : String :=
  let s := natStr n
  if s.length < 4 then String.mk (List.replicate (4 - s.length) '0') ++ s else s

/-! ## Wall-clock formatting (`time.gmtime` + `time.strftime`) -/

/-- Civil date (year, month, day) from days since the Unix epoch, the date
part of `time.gmtime` for nonnegative times. -/
def civilFromDays (days : Nat) : Nat × Nat × Nat :=
  let z := days + 719468
  let era := z / 146097
  let doe := z % 146097
  let yoe := (doe - doe / 1460 + doe / 36524 - doe / 146096) / 365
  let y := yoe + era * 400
  let doy := doe - (365 * yoe + yoe / 4 - yoe / 100)
  let mp := (5 * doy + 2) / 153
  let d := doy - (153 * mp + 2) / 5 + 1
  let m := if mp < 10 then mp + 3 else mp - 9
  (if m ≤ 2 then y + 1 else y, m, d)

/-- Rendering of `time.strftime("%Y-%m-%dT%H:%M:%S", time.gmtime(secs))`. -/
def gmtimeFormat (secs : Nat) : String :=
  let days := secs / 86400
  let sod := secs % 86400
  let c := civilFromDays days
  pad4 c.1 ++ "-" ++ pad2 c.2.1 ++ "-" ++ pad2 c.2.2 ++ "T" ++
    pad2 (sod / 3600) ++ ":" ++ pad2 (sod % 3600 / 60) ++ ":" ++ pad2 (sod % 60)

/-- The `timestamp` field of a capture:
`time.strftime("%Y-%m-%dT%H:%M:%S.000Z", time.gmtime())`, with the wall clock
given in milliseconds since the epoch.  The millisecond part of the output is
the literal `000` of the format string, not derived from the clock. -/
def captureTimestamp (nowMs : Nat) : String :=
  gmtimeFormat (nowMs / 1000) ++ ".000Z"

/-! ## JSON values and Python's ASCII-safe encoder (`json.dump(..., ensure_ascii=True)`) -/

/-- JSON values: the shape of the capture dict handed to `json.dump`. -/
inductive JValue where
  | null
  | bool (b : Bool)
  | num (n : Int)
  | str (s : String)
  | arr (elems : List JValue)
  | obj (fields : List (String × JValue))

/-- Lowercase hexadecimal digit, as emitted by Python's `json` encoder. -/
def hexDigit (d : Nat) : Char := Char.ofNat (if d < 10 then 48 + d else 87 + d)

/-- Escape `\uXXXX` of one 16-bit code unit. -/
def uEscape16 (n : Nat) : List Char :=
  ['\\', 'u', hexDigit (n / 4096 % 16), hexDigit (n / 256 % 16),
   hexDigit (n / 16 % 16), hexDigit (n % 16)]

/-- Escaping of one character by Python's `json` encoder in ASCII mode:
printable ASCII other than `"` and `\` passes through, control characters use
the short escapes or `\uXXXX`, and everything above `~` becomes `\uXXXX`
(a surrogate pair beyond the BMP) — never a raw non-ASCII character. -/
def escChar (c : Char) : List Char :=
  if c = '"' then ['\\', '"']
  else if c = '\\' then ['\\', '\\']
  else if c.toNat = 10 then ['\\', 'n']
  else if c.toNat = 9 then ['\\', 't']
  else if c.toNat = 13 then ['\\', 'r']
  else if c.toNat = 8 then ['\\', 'b']
  else if c.toNat = 12 then ['\\', 'f']
  else if c.toNat < 32 then uEscape16 c.toNat
  else if c.toNat ≤ 126 then [c]
  else if c.toNat ≤ 65535 then uEscape16 c.toNat
  else
    let v := c.toNat - 65536
    uEscape16 (55296 + v / 1024) ++ uEscape16 (56320 + v % 1024)

/-- A JSON string literal: quoted, every character escaped by `escChar`. -/
def escString (s : String) : List Char :=
  '"' :: (s.data.map escChar).flatten ++ ['"']

/-- Rendering of a JSON integer. -/
def intChars (n : Int) : List Char :=
  if n < 0 then '-' :: (natStr n.natAbs).data else (natStr n.toNat).data

mutual
/-- The characters `json.dump(v, f, ensure_ascii=True)` writes for `v`
(default separators `", "` and `": "`). -/
def serJ : JValue → List Char
  | .null => "null".data
  | .bool true => "true".data
  | .bool false => "false".data
  | .num n => intChars n
  | .str s => escString s
  | .arr xs => '[' :: serArr xs ++ [']']
  | .obj fs => Char.ofNat 123 :: serObj fs ++ [Char.ofNat 125]

def serArr : List JValue → List Char
  | [] => []
  | [x] => serJ x
  | x :: y :: xs => serJ x ++ ',' :: ' ' :: serArr (y :: xs)

def serObj : List (String × JValue) → List Char
  | [] => []
  | [(k, v)] => escString k ++ ':' :: ' ' :: serJ v
  | (k, v) :: f :: fs =>
    escString k ++ ':' :: ' ' :: serJ v ++ ',' :: ' ' :: serObj (f :: fs)
end

/-- Every character is 7-bit ASCII. -/
def asciiOnly (l : List Char) : Bool := l.all fun c => c.toNat < 128

/-! ## Filesystem model and `_write_capture` -/

/-- Filesystem operations issued by `_write_capture`, in program order. -/
inductive FSOp where
  | mkdirParents (dir : String)
  | writeFile (path : String) (content : List Char)
  | rename (src dst : String)

/-- Which of the three filesystem calls of `_write_capture` succeed; `false`
models the call raising `OSError`. -/
structure FSBehavior where
  mkdirOk : Bool
  writeOk : Bool
  renameOk : Bool

/-- All filesystem calls succeed. -/
def fsOk : FSBehavior := ⟨true, true, true⟩

/-- Python `"_".join`. -/
def joinUnderscore : List String → String
  | [] => ""
  | [x] => x
  | x :: y :: xs => x ++ "_" ++ joinUnderscore (y :: xs)

/-- Function `_write_capture(capture, source, session_id)` with the process state made
explicit: takes the current `_SEQ` value and the wall clock (ms) and returns
(raised?, new `_SEQ`, filesystem operations completed, in order).  As in the
source, `_SEQ` is incremented right after the directory is ensured and before
the temporary file is written. -/
def writeCapture (fs : FSBehavior) (captureDir : String) (seq nowMs : Nat)
    (capture : JValue) (source sessionId : String) :
    Bool × Nat × List FSOp :=
  if fs.mkdirOk = false then (true, seq, [])
  else
    let ts := nowMs
    let seqStr := pad6 seq
    let seq' := seq + 1
    let parts := [source] ++ (if sessionId ≠ "" then [sessionId] else [])
      ++ [natStr ts ++ "-" ++ seqStr]
    let filename := joinUnderscore parts ++ ".json"
    let outFile := captureDir ++ "/" ++ filename
    let tmpFile := captureDir ++ "/" ++ ("." ++ filename ++ ".tmp")
    if fs.writeOk = false then (true, seq', [.mkdirParents captureDir])
    else if fs.renameOk = false then
      (true, seq', [.mkdirParents captureDir, .writeFile tmpFile (serJ capture)])
    else
      (false, seq', [.mkdirParents captureDir, .writeFile tmpFile (serJ capture),
        .rename tmpFile outFile])

/-! ## The `response` handler -/

/-- Environment-derived process configuration, read once at module import
(`CAPTURE_DIR`, `SOURCE`, `SESSION_ID`). -/
structure Config where
  captureDir : String
  source : String
  sessionId : String

/-- Initial sequence counter: `_SEQ = 0` at process start. -/
def SEQ_INIT : Nat := 0

/-- The request half of a flow as the handler reads it.  `textJson` is the
combined result of `flow.request.get_text()` followed by `json.loads`:
`.error` if either raises.  `rawLen` is `len(flow.request.raw_content or b"")`. -/
structure RequestData where
  method : String
  prettyHost : String
  path : String
  prettyUrl : String
  headers : List (String × String)
  textJson : Except Unit JValue
  rawLen : Nat
  timestampStart : Option ℚ

/-- The response half of a flow; `text` is `flow.response.get_text()`
(`.error` when it raises). -/
structure ResponseData where
  statusCode : Nat
  headers : List (String × String)
  text : Except Unit String
  rawLen : Nat
  timestampEnd : Option ℚ

/-- One intercepted request/response exchange. -/
structure HTTPFlow where
  request : RequestData
  response : ResponseData

/-- The capture dict assembled by `response` (`send_ms`, `wait_ms`,
`receive_ms` are constant zero placeholders and live only in the JSON view). -/
structure CaptureRecord where
  timestamp : String
  sessionId : Option String
  method : String
  path : String
  source : String
  provider : String
  apiFormat : String
  targetUrl : String
  requestHeaders : List (String × String)
  requestBody : Option JValue
  requestBytes : Nat
  responseStatus : Nat
  responseHeaders : List (String × String)
  responseBody : String
  responseIsStreaming : Bool
  responseBytes : Nat
  timingsTotalMs : Int

/-- Header map as a JSON object. -/
def headersToJson (hs : List (String × String)) : JValue :=
  .obj (hs.map fun e => (e.1, .str e.2))

/-- The capture dict as the JSON value handed to `json.dump`, fields in the
source's insertion order. -/
def captureToJson (c : CaptureRecord) : JValue :=
  .obj [
    ("timestamp", .str c.timestamp),
    ("sessionId", match c.sessionId with | some s => .str s | none => .null),
    ("method", .str c.method),
    ("path", .str c.path),
    ("source", .str c.source),
    ("provider", .str c.provider),
    ("apiFormat", .str c.apiFormat),
    ("targetUrl", .str c.targetUrl),
    ("requestHeaders", headersToJson c.requestHeaders),
    ("requestBody", match c.requestBody with | some v => v | none => .null),
    ("requestBytes", .num c.requestBytes),
    ("responseStatus", .num c.responseStatus),
    ("responseHeaders", headersToJson c.responseHeaders),
    ("responseBody", .str c.responseBody),
    ("responseIsStreaming", .bool c.responseIsStreaming),
    ("responseBytes", .num c.responseBytes),
    ("timings", .obj [
      ("send_ms", .num 0),
      ("wait_ms", .num 0),
      ("receive_ms", .num 0),
      ("total_ms", .num c.timingsTotalMs)])]

/-- Result of one invocation of the `response` handler: whether an exception
escaped to the host engine, the capture dict assembled (if any), the new
sequence counter, and the filesystem operations completed. -/
structure HandlerOutcome where
  raised : Bool
  record : Option CaptureRecord
  seq : Nat
  ops : List FSOp

/-- The capture-dict assembly of the `response` handler (source lines
142-188).  Each `try/except Exception: pass` of the source appears as the
match that replaces the failed computation by the value the Python code
leaves in place. -/
def mkCapture (cfg : Config) (nowMs : Nat) (flow : HTTPFlow)
    (provider : String) : CaptureRecord :=
  -- request_body = None; try: request_body = json.loads(...) except: pass
  let requestBody : Option JValue :=
    match flow.request.textJson with
    | .ok v => some v
    | .error _ => none
  -- response_body = ""; response_is_streaming = False
  -- try: get_text(), then the content-type check  except: pass
  let rb : String × Bool :=
    match flow.response.text with
    | .ok t =>
      let contentType := headerGet flow.response.headers "content-type" ""
      (t, strContains contentType "text/event-stream")
    | .error _ => ("", false)
  -- start = timestamp_start or 0; end = timestamp_end or start
  let start : ℚ := match flow.request.timestampStart with
    | none => 0
    | some q => if q = 0 then 0 else q
  let stop : ℚ := match flow.response.timestampEnd with
    | none => start
    | some q => if q = 0 then start else q
  let totalMs : Int := Rat.floor (max 0 ((stop - start) * 1000))
  { timestamp := captureTimestamp nowMs
    sessionId := if cfg.sessionId = "" then none else some cfg.sessionId
    method := "POST"
    path := flow.request.path
    source := cfg.source
    provider := provider
    apiFormat := detectApiFormat flow.request.path provider
    targetUrl := flow.request.prettyUrl
    requestHeaders := safeHeaders flow.request.headers
    requestBody := requestBody
    requestBytes := flow.request.rawLen
    responseStatus := flow.response.statusCode
    responseHeaders := safeHeaders flow.response.headers
    responseBody := rb.1
    responseIsStreaming := rb.2
    responseBytes := flow.response.rawLen
    timingsTotalMs := totalMs }

/-- The `response(flow)` handler of `mitm_addon.py`: filter (method and
provider), assemble the capture via `mkCapture`, persist via
`_write_capture` inside the source's final `try/except`. -/
def response (cfg : Config) (fs : FSBehavior) (seq nowMs : Nat) (flow : HTTPFlow) :
    HandlerOutcome :=
  if flow.request.method ≠ "POST" then ⟨false, none, seq, []⟩
  else
    match matchProvider flow.request.prettyHost with
    | none => ⟨false, none, seq, []⟩
    | some provider =>
      if provider = "" then ⟨false, none, seq, []⟩  -- `if not provider` also holds for ""
      else
        let capture := mkCapture cfg nowMs flow provider
        -- try: _write_capture(...) except: pass  (the raised flag is dropped)
        let w := writeCapture fs cfg.captureDir seq nowMs (captureToJson capture)
          cfg.source cfg.sessionId
        ⟨false, some capture, w.2.1, w.2.2⟩

/-- Test returning `true` exactly for the atomic rename that makes a capture file visible. -/
def isRename : FSOp → Bool
  | .rename _ _ => true
  | _ => false

/-- A complete capture file became visible: the completed operations include
the final rename. -/
def persisted (o : HandlerOutcome) : Bool := o.ops.any isRename

/-! ## Routing mode -/

/-- Modelled from the spec: the routing-mode addon (the request-ready handler
of the second deployment variant) is not present under `src/`; only the
capture addon is.  Per spec §4.5, with a configured (non-empty) forwarding
base URL the flow's destination becomes
`{forwardingBaseUrl}/{source}[/{sessionId}]{originalPath}` (session segment
omitted when no session id is set); with it unset the destination is left
unmodified. -/
def rewriteDestination (forwardingBaseUrl source sessionId originalPath
    currentUrl : String) : String :=
  if forwardingBaseUrl = "" then currentUrl
  else forwardingBaseUrl ++ "/" ++ source ++
    (if sessionId = "" then "" else "/" ++ sessionId) ++ originalPath

/-! ## Statement-side definitions and concrete fixtures -/

/-- The filename scheme stated by the spec:
`{source}[_{sessionId}]_{timestampMs}-{sequence:06d}.json`. -/
def fileNameSpec (source sessionId : String) (ts seq : Nat) : String :=
  source ++ (if sessionId = "" then "" else "_" ++ sessionId) ++ "_" ++
    natStr ts ++ "-" ++ pad6 seq ++ ".json"

/-- A concrete configuration used in witnesses and counterexamples. -/
def exampleCfg : Config := ⟨"/captures", "copilot", "abcd1234"⟩

/-- A concrete POST flow to `api.anthropic.com` whose response declares an
event-stream content type. -/
def postFlow : HTTPFlow :=
  { request := {
      method := "POST"
      prettyHost := "api.anthropic.com"
      path := "/v1/messages"
      prettyUrl := "https://api.anthropic.com/v1/messages"
      headers := [("Content-Type", "application/json"),
                  ("Authorization", "Bearer secret")]
      textJson := Except.ok (JValue.obj [("model", JValue.str "m")])
      rawLen := 42
      timestampStart := some 1 }
    response := {
      statusCode := 200
      headers := [("content-type", "text/event-stream")]
      text := Except.ok "data: ok"
      rawLen := 8
      timestampEnd := some 2 } }

/-- Flow `postFlow` with a request body whose JSON decoding raises. -/
def decodeFailFlow : HTTPFlow :=
  { postFlow with
    request := { postFlow.request with textJson := Except.error () } }

/-- Flow `postFlow` with a response body whose text decoding raises. -/
def respFailFlow : HTTPFlow :=
  { postFlow with
    response := { postFlow.response with text := Except.error () } }

/-- Flow `postFlow` as a GET request. -/
def getFlow : HTTPFlow :=
  { postFlow with
    request := { postFlow.request with method := "GET" } }

/-- A filesystem on which the temp-file write raises. -/
def fsWriteFails : FSBehavior := ⟨true, false, true⟩

/-! ## Helper lemmas -/

/-- Two suffixes of one list are comparable: the shorter is a suffix of the
longer. -/
theorem suffix_suffix_of_length_le {α : Type} {l₁ l₂ l₃ : List α}
    (h₁ : l₁ <:+ l₃) (h₂ : l₂ <:+ l₃) (hlen : l₁.length ≤ l₂.length) :
    l₁ <:+ l₂ := by
  induction l₃ with
  | nil =>
    rw [List.suffix_nil] at h₁
    subst h₁
    exact List.nil_suffix
  | cons a t ih =>
    rcases List.suffix_cons_iff.mp h₂ with h | h
    · exact h ▸ h₁
    · rcases List.suffix_cons_iff.mp h₁ with h' | h'
      · exfalso
        have hle := h.length_le
        rw [h'] at hlen
        simp only [List.length_cons] at hlen
        omega
      · exact ih h' h

/-- No pattern of `LLM_HOSTS`, preceded by a dot, is a suffix of another
pattern: the rules are pairwise disjoint, so at most one can match any host. -/
theorem llmHosts_no_dot_suffix :
    ∀ x ∈ LLM_HOSTS, ∀ y ∈ LLM_HOSTS, x.1 ≠ y.1 →
      ¬ ('.' :: x.1.data <:+ y.1.data) := by decide

/-- The pattern determines the table entry (dict keys are unique). -/
theorem llmHosts_key_unique :
    ∀ x ∈ LLM_HOSTS, ∀ y ∈ LLM_HOSTS, x.1 = y.1 → x = y := by decide

/-- Every provider value in the table is nonempty. -/
theorem llmHosts_provider_nonempty : ∀ x ∈ LLM_HOSTS, x.2 ≠ "" := by decide

/-- Prepending a dot, seen on the character lists. -/
theorem dot_append_data (p : String) : ("." ++ p).data = '.' :: p.data := by
  rcases p with ⟨pd⟩
  rfl

/-- The Boolean rule test, as a proposition. -/
theorem hostMatchesPattern_iff {h p : String} :
    hostMatchesPattern h p = true ↔ (h = p ∨ ('.' :: p.data <:+ h.data)) := by
  unfold hostMatchesPattern strEndsWith
  rw [Bool.or_eq_true, beq_iff_eq, List.isSuffixOf_iff_suffix, dot_append_data]

/-- At most one rule of `LLM_HOSTS` matches any given host. -/
theorem matched_rule_unique {h : String} {x y : String × String}
    (hx : x ∈ LLM_HOSTS) (hy : y ∈ LLM_HOSTS)
    (mx : hostMatchesPattern h x.1 = true)
    (my : hostMatchesPattern h y.1 = true) : x = y := by
  by_cases hkey : x.1 = y.1
  · exact llmHosts_key_unique x hx y hy hkey
  · exfalso
    rcases hostMatchesPattern_iff.mp mx with ex | sx
    · rcases hostMatchesPattern_iff.mp my with ey | sy
      · exact hkey (ex ▸ ey ▸ rfl)
      · rw [ex] at sy
        exact llmHosts_no_dot_suffix y hy x hx (fun he => hkey he.symm) sy
    · rcases hostMatchesPattern_iff.mp my with ey | sy
      · rw [ey] at sx
        exact llmHosts_no_dot_suffix x hx y hy hkey sx
      · rcases le_total ('.' :: x.1.data).length ('.' :: y.1.data).length with
          hle | hle
        · have hs := suffix_suffix_of_length_le sx sy hle
          rcases List.suffix_cons_iff.mp hs with he | hsuf
          · have : x.1.data = y.1.data := by
              injection he with _ h2
            exact hkey (String.ext this)
          · exact llmHosts_no_dot_suffix x hx y hy hkey hsuf
        · have hs := suffix_suffix_of_length_le sy sx hle
          rcases List.suffix_cons_iff.mp hs with he | hsuf
          · have : y.1.data = x.1.data := by
              injection he with _ h2
            exact hkey (String.ext this.symm)
          · exact llmHosts_no_dot_suffix y hy x hx (fun he => hkey he.symm) hsuf

/-- Equation for `_match_provider` with the `let` unfolded. -/
theorem matchProvider_eq (host : String) :
    matchProvider host =
      (LLM_HOSTS.find? fun rule =>
        hostMatchesPattern (lowerStr host) rule.1).map (·.2) := rfl

/-- A matched provider is never the empty string (so Python's
`if not provider` test is equivalent to the `None` test). -/
theorem matchProvider_ne_empty {h p : String}
    (hp : matchProvider h = some p) : p ≠ "" := by
  rw [matchProvider_eq] at hp
  rcases he : LLM_HOSTS.find? fun rule => hostMatchesPattern (lowerStr h) rule.1
    with _ | q
  · rw [he] at hp
    simp at hp
  · rw [he] at hp
    simp only [Option.map_some'] at hp
    have hq := List.mem_of_find?_eq_some he
    have := llmHosts_provider_nonempty q hq
    exact Option.some.inj hp ▸ this

/-! ## Claim theorems -/

/-- C6: for every host `h`, `_match_provider` returns the provider of the rule
whose pattern the lowercased `h` equals or ends with `"." + pattern` — since at
most one rule can match, this is in particular the longest matching suffix
rule — and returns `none` exactly when no rule matches; matching is
case-insensitive, so `API.ANTHROPIC.COM` classifies as `anthropic`. -/
theorem matchProvider_correct :
    (∀ h : String, matchProvider h = none ↔
      ∀ rule ∈ LLM_HOSTS, hostMatchesPattern (lowerStr h) rule.1 = false) ∧
    (∀ h : String, ∀ rule ∈ LLM_HOSTS,
      hostMatchesPattern (lowerStr h) rule.1 = true →
      matchProvider h = some rule.2) ∧
    matchProvider "API.ANTHROPIC.COM" = some "anthropic" := by
  refine ⟨?_, ?_, by decide⟩
  · intro h
    rw [matchProvider_eq]
    constructor
    · intro hm rule hr
      rcases he : LLM_HOSTS.find? fun r => hostMatchesPattern (lowerStr h) r.1
        with _ | q
      · have := List.find?_eq_none.mp he rule hr
        simpa using this
      · rw [he] at hm
        simp at hm
    · intro hall
      rw [List.find?_eq_none.mpr fun x hx => by simp [hall x hx]]
      rfl
  · intro h rule hr hm
    rw [matchProvider_eq]
    rcases he : LLM_HOSTS.find? fun r => hostMatchesPattern (lowerStr h) r.1
      with _ | q
    · have := List.find?_eq_none.mp he rule hr
      simp [hm] at this
    · have hq := List.mem_of_find?_eq_some he
      have hqm := List.find?_some he
      have heq : q = rule := matched_rule_unique hq hr hqm hm
      rw [he, heq]
      rfl

/-- Witness for C6 at a concrete host: `sub.API.openai.com` matches the rule
`("api.openai.com", "openai")` by dotted suffix after lowercasing, and
`_match_provider` returns `openai`. -/
theorem matchProvider_correct_witness :
    matchProvider "sub.API.openai.com" = some "openai" :=
  matchProvider_correct.2.1 "sub.API.openai.com" ("api.openai.com", "openai")
    (by decide) (by decide)

/-- C7: API-format classification is total and never errors: anthropic paths
containing `/messages` map to `anthropic-messages`; openai/chatgpt paths are
tested in the fixed priority order `/chat/completions`, `/responses`,
`/backend-api/`, `/mcp/` (first match wins); openrouter/opencode test
`/chat/completions` then `/responses`; gemini always maps to `gemini`; every
unmatched input yields `unknown`. -/
theorem detectApiFormat_correct :
    (∀ path, detectApiFormat path "anthropic" =
      if strContains path "/messages" then "anthropic-messages"
      else "unknown") ∧
    (∀ path provider, provider = "openai" ∨ provider = "chatgpt" →
      detectApiFormat path provider =
        if strContains path "/chat/completions" then "chat-completions"
        else if strContains path "/responses" then "responses"
        else if strContains path "/backend-api/" then "chatgpt-backend"
        else if strContains path "/mcp/" then "mcp"
        else "unknown") ∧
    (∀ path provider, provider = "openrouter" ∨ provider = "opencode" →
      detectApiFormat path provider =
        if strContains path "/chat/completions" then "chat-completions"
        else if strContains path "/responses" then "responses"
        else "unknown") ∧
    (∀ path, detectApiFormat path "gemini" = "gemini") ∧
    (∀ path provider,
      provider ∉ ["anthropic", "openai", "chatgpt", "openrouter", "opencode",
        "gemini"] →
      detectApiFormat path provider = "unknown") ∧
    (∀ path provider, detectApiFormat path provider ∈
      ["anthropic-messages", "chat-completions", "responses",
       "chatgpt-backend", "mcp", "gemini", "unknown"]) ∧
    detectApiFormat "/backend-api/conversation" "chatgpt" = "chatgpt-backend"
    := by
  refine ⟨?_, ?_, ?_, ?_, ?_, ?_, by decide⟩
  · intro path
    rfl
  · intro path provider hp
    rcases hp with rfl | rfl
    · rfl
    · rfl
  · intro path provider hp
    rcases hp with rfl | rfl
    · rfl
    · rfl
  · intro path
    rfl
  · intro path provider hp
    simp only [List.mem_cons, List.not_mem_nil, or_false, not_or] at hp
    obtain ⟨h1, h2, h3, h4, h5, h6⟩ := hp
    unfold detectApiFormat
    rw [if_neg h1, if_neg (by tauto), if_neg (by tauto), if_neg h6]
  · intro path provider
    unfold detectApiFormat
    split_ifs <;> decide

/-- Witness for C7 at concrete inputs: a chatgpt path containing both
`/backend-api/` and `/responses` resolves by the fixed priority order. -/
theorem detectApiFormat_correct_witness :
    detectApiFormat "/backend-api/responses" "chatgpt" = "responses" := by
  have h := detectApiFormat_correct.2.1 "/backend-api/responses" "chatgpt"
    (Or.inr rfl)
  rw [h]
  decide

/-- Membership after a dict assignment: the element was already present or is
the new binding. -/
theorem mem_dictInsert {d : List (String × String)} {k v : String}
    {e : String × String} (he : e ∈ dictInsert d k v) : e ∈ d ∨ e = (k, v) := by
  unfold dictInsert at he
  split at he
  · rcases List.mem_map.mp he with ⟨x, hx, hxe⟩
    by_cases hk : x.1 = k
    · right
      rw [← hxe, if_pos hk]
    · left
      rw [← hxe, if_neg hk]
      exact hx
  · rcases List.mem_append.mp he with h | h
    · exact Or.inl h
    · right
      simpa using h

/-- A dict assignment never removes a key. -/
theorem dictInsert_keeps_key {d : List (String × String)} {k v k₀ : String}
    (h : ∃ w, (k₀, w) ∈ d) : ∃ w, (k₀, w) ∈ dictInsert d k v := by
  rcases h with ⟨w, hw⟩
  unfold dictInsert
  split
  · by_cases hk : k₀ = k
    · subst hk
      exact ⟨v, List.mem_map.mpr ⟨(k₀, w), hw, by simp⟩⟩
    · exact ⟨w, List.mem_map.mpr ⟨(k₀, w), hw, by simp [hk]⟩⟩
  · exact ⟨w, List.mem_append.mpr (Or.inl hw)⟩

/-- A dict assignment makes its own key present. -/
theorem dictInsert_mem_self (d : List (String × String)) (k v : String) :
    ∃ w, (k, w) ∈ dictInsert d k v := by
  unfold dictInsert
  split
  · rename_i h
    rcases List.any_eq_true.mp h with ⟨x, hx, hxk⟩
    have hxk' : x.1 = k := by simpa using hxk
    exact ⟨v, List.mem_map.mpr ⟨x, hx, by simp [hxk']⟩⟩
  · exact ⟨v, List.mem_append.mpr (Or.inr (by simp))⟩

/-- Every element of the `_safe_headers` accumulator either was already there
or is an input entry whose lowercased name is allowlisted. -/
theorem safeHeaders_foldl_mem :
    ∀ (hs acc : List (String × String)) (e : String × String),
      e ∈ hs.foldl safeHeadersStep acc →
      e ∈ acc ∨ (lowerStr e.1 ∈ allowedHeaders ∧ e ∈ hs) := by
  intro hs
  induction hs with
  | nil =>
    intro acc e he
    left
    simpa using he
  | cons hd tl ih =>
    intro acc e he
    simp only [List.foldl_cons] at he
    rcases ih _ e he with h | h
    · unfold safeHeadersStep at h
      split at h
      · rename_i hcond
        rcases mem_dictInsert h with h' | h'
        · exact Or.inl h'
        · right
          rw [h']
          refine ⟨by simpa using hcond, ?_⟩
          simp
      · exact Or.inl h
    · exact Or.inr ⟨h.1, List.mem_cons_of_mem _ h.2⟩

/-- Keys present in the accumulator survive the rest of the fold. -/
theorem safeHeaders_foldl_keeps_key :
    ∀ (hs acc : List (String × String)) (k : String),
      (∃ w, (k, w) ∈ acc) → ∃ w, (k, w) ∈ hs.foldl safeHeadersStep acc := by
  intro hs
  induction hs with
  | nil =>
    intro acc k h
    simpa using h
  | cons hd tl ih =>
    intro acc k h
    simp only [List.foldl_cons]
    apply ih
    unfold safeHeadersStep
    split
    · exact dictInsert_keeps_key h
    · exact h

/-- Every allowlisted input entry ends with its key present in the output. -/
theorem safeHeaders_foldl_adds :
    ∀ (hs acc : List (String × String)) (e : String × String),
      e ∈ hs → lowerStr e.1 ∈ allowedHeaders →
      ∃ w, (e.1, w) ∈ hs.foldl safeHeadersStep acc := by
  intro hs
  induction hs with
  | nil =>
    intro acc e he
    simp at he
  | cons hd tl ih =>
    intro acc e he hallow
    simp only [List.foldl_cons]
    rcases List.mem_cons.mp he with rfl | hte
    · apply safeHeaders_foldl_keeps_key
      unfold safeHeadersStep
      rw [if_pos hallow]
      exact dictInsert_mem_self acc e.1 e.2
    · exact ih _ e hte hallow

/-- C3: the header redactor's output contains only headers whose names are in
the fixed allowlist — in particular never `Authorization` or `x-api-key` —
with name matching case-insensitive and each retained header copied through
with its original casing and value unmodified. -/
theorem safeHeaders_allowlist :
    (∀ (hs : List (String × String)) (e : String × String),
      e ∈ safeHeaders hs → lowerStr e.1 ∈ allowedHeaders ∧ e ∈ hs) ∧
    (∀ (hs : List (String × String)) (e : String × String),
      e ∈ safeHeaders hs →
      lowerStr e.1 ≠ "authorization" ∧ lowerStr e.1 ≠ "x-api-key") ∧
    (∀ (hs : List (String × String)) (e : String × String),
      e ∈ hs → lowerStr e.1 ∈ allowedHeaders →
      ∃ w, (e.1, w) ∈ safeHeaders hs) := by
  have hmain : ∀ (hs : List (String × String)) (e : String × String),
      e ∈ safeHeaders hs → lowerStr e.1 ∈ allowedHeaders ∧ e ∈ hs := by
    intro hs e he
    rcases safeHeaders_foldl_mem hs [] e he with h | h
    · simp at h
    · exact h
  refine ⟨hmain, ?_, ?_⟩
  · intro hs e he
    have h := (hmain hs e he).1
    constructor
    · intro hc
      rw [hc] at h
      exact absurd h (by decide)
    · intro hc
      rw [hc] at h
      exact absurd h (by decide)
  · intro hs e he hallow
    exact safeHeaders_foldl_adds hs [] e he hallow

/-- Witness for C3 at a concrete header map: `Content-Type` is retained with
original casing and value, and its lowercased name is allowlisted, while the
map also contains an `Authorization` entry. -/
theorem safeHeaders_allowlist_witness :
    lowerStr ("Content-Type", "application/json").1 ∈ allowedHeaders ∧
    ("Content-Type", "application/json") ∈
      [("Authorization", "secret"), ("Content-Type", "application/json")] :=
  safeHeaders_allowlist.1
    [("Authorization", "secret"), ("Content-Type", "application/json")]
    ("Content-Type", "application/json") (by decide)

/-! ## ASCII safety of the serializer -/

theorem digitChar_ascii {d : Nat} (h : d < 10) : (digitChar d).toNat < 128 := by
  interval_cases d <;> decide

theorem natDigitsAux_ascii :
    ∀ (fuel n : Nat) (acc : List Char), (∀ c ∈ acc, c.toNat < 128) →
      ∀ c ∈ natDigitsAux fuel n acc, c.toNat < 128 := by
  intro fuel
  induction fuel with
  | zero =>
    intro n acc hacc c hc
    exact hacc c hc
  | succ fuel ih =>
    intro n acc hacc c hc
    unfold natDigitsAux at hc
    split at hc
    · rename_i hn
      rcases List.mem_cons.mp hc with rfl | h
      · exact digitChar_ascii hn
      · exact hacc c h
    · refine ih (n / 10) _ ?_ c hc
      intro d hd
      rcases List.mem_cons.mp hd with rfl | h
      · exact digitChar_ascii (Nat.mod_lt _ (by omega))
      · exact hacc d h

theorem natStr_ascii (n : Nat) : ∀ c ∈ (natStr n).data, c.toNat < 128 :=
  fun c hc => natDigitsAux_ascii _ _ _ (by simp) c hc

theorem intChars_ascii (n : Int) : ∀ c ∈ intChars n, c.toNat < 128 := by
  intro c hc
  unfold intChars at hc
  split at hc
  · rcases List.mem_cons.mp hc with rfl | h
    · decide
    · exact natStr_ascii _ c h
  · exact natStr_ascii _ c hc

theorem hexDigit_ascii {d : Nat} (h : d < 16) : (hexDigit d).toNat < 128 := by
  interval_cases d <;> decide

theorem uEscape16_ascii (n : Nat) : ∀ c ∈ uEscape16 n, c.toNat < 128 := by
  intro c hc
  simp only [uEscape16, List.mem_cons, List.not_mem_nil, or_false] at hc
  rcases hc with rfl | rfl | rfl | rfl | rfl | rfl
  · decide
  · decide
  all_goals exact hexDigit_ascii (Nat.mod_lt _ (by omega))

theorem escChar_ascii (c : Char) : ∀ d ∈ escChar c, d.toNat < 128 := by
  intro d hd
  unfold escChar at hd
  repeat' split at hd
  all_goals
    first
    | exact uEscape16_ascii _ d hd
    | (rcases List.mem_append.mp hd with h | h <;> exact uEscape16_ascii _ d h)
    | (simp only [List.mem_cons, List.not_mem_nil, or_false] at hd
       first
       | (rcases hd with rfl | rfl <;> decide)
       | (subst hd; omega))

theorem escString_ascii (s : String) : ∀ d ∈ escString s, d.toNat < 128 := by
  intro d hd
  unfold escString at hd
  rcases List.mem_cons.mp hd with rfl | hd
  · decide
  rcases List.mem_append.mp hd with hd | hd
  · rcases List.mem_flatten.mp hd with ⟨l, hl, hdl⟩
    rcases List.mem_map.mp hl with ⟨ch, _, rfl⟩
    exact escChar_ascii ch d hdl
  · simp only [List.mem_cons, List.not_mem_nil, or_false] at hd
    subst hd
    decide

mutual
theorem serJ_ascii : ∀ (v : JValue), ∀ c ∈ serJ v, c.toNat < 128
  | JValue.null => by
    intro c hc
    simp only [serJ] at hc
    exact (by decide : ∀ c ∈ ("null".data : List Char), c.toNat < 128) c hc
  | JValue.bool b => by
    intro c hc
    cases b with
    | true =>
      simp only [serJ] at hc
      exact (by decide : ∀ c ∈ ("true".data : List Char), c.toNat < 128) c hc
    | false =>
      simp only [serJ] at hc
      exact (by decide : ∀ c ∈ ("false".data : List Char), c.toNat < 128) c hc
  | JValue.num n => by
    intro c hc
    simp only [serJ] at hc
    exact intChars_ascii n c hc
  | JValue.str s => by
    intro c hc
    simp only [serJ] at hc
    exact escString_ascii s c hc
  | JValue.arr xs => by
    intro c hc
    simp only [serJ] at hc
    rcases List.mem_cons.mp hc with rfl | hc
    · decide
    rcases List.mem_append.mp hc with h | h
    · exact serArr_ascii xs c h
    · simp only [List.mem_cons, List.not_mem_nil, or_false] at h
      subst h
      decide
  | JValue.obj fs => by
    intro c hc
    simp only [serJ] at hc
    rcases List.mem_cons.mp hc with rfl | hc
    · decide
    rcases List.mem_append.mp hc with h | h
    · exact serObj_ascii fs c h
    · simp only [List.mem_cons, List.not_mem_nil, or_false] at h
      subst h
      decide

theorem serArr_ascii : ∀ (xs : List JValue), ∀ c ∈ serArr xs, c.toNat < 128
  | [] => by
    intro c hc
    simp only [serArr] at hc
    exact absurd hc (List.not_mem_nil c)
  | [x] => by
    intro c hc
    simp only [serArr] at hc
    exact serJ_ascii x c hc
  | x :: y :: xs => by
    intro c hc
    simp only [serArr] at hc
    rcases List.mem_append.mp hc with h | h
    · exact serJ_ascii x c h
    · rcases List.mem_cons.mp h with rfl | h
      · decide
      rcases List.mem_cons.mp h with rfl | h
      · decide
      · exact serArr_ascii (y :: xs) c h

theorem serObj_ascii :
    ∀ (fs : List (String × JValue)), ∀ c ∈ serObj fs, c.toNat < 128
  | [] => by
    intro c hc
    simp only [serObj] at hc
    exact absurd hc (List.not_mem_nil c)
  | [(k, v)] => by
    intro c hc
    simp only [serObj] at hc
    rcases List.mem_append.mp hc with h | h
    · exact escString_ascii k c h
    · rcases List.mem_cons.mp h with rfl | h
      · decide
      rcases List.mem_cons.mp h with rfl | h
      · decide
      · exact serJ_ascii v c h
  | (k, v) :: f :: fs => by
    intro c hc
    simp only [serObj] at hc
    rcases List.mem_append.mp hc with h | h
    · rcases List.mem_append.mp h with h' | h'
      · exact escString_ascii k c h'
      · rcases List.mem_cons.mp h' with rfl | h'
        · decide
        rcases List.mem_cons.mp h' with rfl | h'
        · decide
        · exact serJ_ascii v c h'
    · rcases List.mem_cons.mp h with rfl | h
      · decide
      rcases List.mem_cons.mp h with rfl | h
      · decide
      · exact serObj_ascii (f :: fs) c h
end

/-! ## The filename scheme -/

theorem strAppend_assoc (a b c : String) : a ++ b ++ c = a ++ (b ++ c) := by
  rcases a with ⟨la⟩
  rcases b with ⟨lb⟩
  rcases c with ⟨lc⟩
  exact congrArg String.mk (List.append_assoc la lb lc)

theorem strAppend_empty (a : String) : a ++ "" = a := by
  rcases a with ⟨la⟩
  exact congrArg String.mk (List.append_nil la)

/-- The `"_".join`-built filename of `_write_capture` equals the spec's
filename scheme. -/
theorem filename_eq (src sid : String) (ts seq : Nat) :
    joinUnderscore ([src] ++ (if sid ≠ "" then [sid] else []) ++
      [natStr ts ++ "-" ++ pad6 seq]) ++ ".json" =
    fileNameSpec src sid ts seq := by
  by_cases h : sid = ""
  · subst h
    simp [joinUnderscore, fileNameSpec, strAppend_assoc, strAppend_empty]
  · simp [joinUnderscore, fileNameSpec, h, strAppend_assoc]

/-- Behaviour of `_write_capture` under a fully working filesystem: one directory creation,
one hidden temp-file write of the serialized JSON, one rename to the final
name, and the sequence counter advanced by one. -/
theorem writeCapture_fsOk_eq (dir : String) (seq nowMs : Nat) (cap : JValue)
    (src sid : String) :
    writeCapture fsOk dir seq nowMs cap src sid =
      (false, seq + 1,
        [FSOp.mkdirParents dir,
         FSOp.writeFile
           (dir ++ "/" ++ ("." ++ fileNameSpec src sid nowMs seq ++ ".tmp"))
           (serJ cap),
         FSOp.rename
           (dir ++ "/" ++ ("." ++ fileNameSpec src sid nowMs seq ++ ".tmp"))
           (dir ++ "/" ++ fileNameSpec src sid nowMs seq)]) := by
  by_cases h : sid = ""
  · subst h
    simp [writeCapture, fsOk, fileNameSpec, joinUnderscore, strAppend_assoc,
      strAppend_empty]
  · simp [writeCapture, fsOk, fileNameSpec, joinUnderscore, h, strAppend_assoc]

/-- Unfolding of `response` on a flow that passes both filters. -/
theorem response_pos (cfg : Config) (fs : FSBehavior) (seq nowMs : Nat)
    (flow : HTTPFlow) (provider : String)
    (hm : flow.request.method = "POST")
    (hp : matchProvider flow.request.prettyHost = some provider) :
    response cfg fs seq nowMs flow =
      ⟨false, some (mkCapture cfg nowMs flow provider),
       (writeCapture fs cfg.captureDir seq nowMs
         (captureToJson (mkCapture cfg nowMs flow provider))
         cfg.source cfg.sessionId).2.1,
       (writeCapture fs cfg.captureDir seq nowMs
         (captureToJson (mkCapture cfg nowMs flow provider))
         cfg.source cfg.sessionId).2.2⟩ := by
  unfold response
  rw [hp]
  simp [hm, matchProvider_ne_empty hp]

/-- Unfolding of `response` on a flow that fails a filter: nothing happens. -/
theorem response_neg (cfg : Config) (fs : FSBehavior) (seq nowMs : Nat)
    (flow : HTTPFlow)
    (h : ¬(flow.request.method = "POST" ∧
      (matchProvider flow.request.prettyHost).isSome = true)) :
    response cfg fs seq nowMs flow = ⟨false, none, seq, []⟩ := by
  unfold response
  by_cases hm : flow.request.method = "POST"
  · rcases hp : matchProvider flow.request.prettyHost with _ | p
    · simp [hm]
    · exact absurd ⟨hm, by rw [hp]; rfl⟩ h
  · simp [hm]

/-- The new `_SEQ` value of `_write_capture`: incremented exactly when the
directory step succeeded, whether or not the write/rename then fails. -/
theorem writeCapture_seq (fs : FSBehavior) (dir : String) (seq now : Nat)
    (cap : JValue) (src sid : String) :
    (writeCapture fs dir seq now cap src sid).2.1 =
      if fs.mkdirOk then seq + 1 else seq := by
  rcases fs with ⟨mk, wr, rn⟩
  cases mk <;> cases wr <;> cases rn <;> simp [writeCapture]

/-- C8: every persisted capture is serialized as ASCII-safe JSON (non-ASCII
characters escaped, never emitted raw), first written to a hidden temporary
file in the target directory (name prefixed `.` and suffixed `.tmp`), then
atomically renamed to `{source}[_{sessionId}]_{timestampMs}-{sequence:06d}.json`,
with the session segment omitted when the session id is empty and the sequence
zero-padded to six decimal digits. -/
theorem writeCapture_atomic :
    (∀ v : JValue, asciiOnly (serJ v) = true) ∧
    (∀ (dir : String) (seq nowMs : Nat) (cap : JValue) (src sid : String),
      writeCapture fsOk dir seq nowMs cap src sid =
        (false, seq + 1,
          [FSOp.mkdirParents dir,
           FSOp.writeFile
             (dir ++ "/" ++ ("." ++ fileNameSpec src sid nowMs seq ++ ".tmp"))
             (serJ cap),
           FSOp.rename
             (dir ++ "/" ++ ("." ++ fileNameSpec src sid nowMs seq ++ ".tmp"))
             (dir ++ "/" ++ fileNameSpec src sid nowMs seq)])) ∧
    pad6 7 = "000007" ∧ pad6 1234567 = "1234567" := by
  refine ⟨?_, writeCapture_fsOk_eq, by decide, by decide⟩
  intro v
  unfold asciiOnly
  rw [List.all_eq_true]
  intro c hc
  exact decide_eq_true (serJ_ascii v c hc)

/-- C2: under a working filesystem, a capture record is produced and persisted
if and only if the request method is POST and the host matches a provider
rule; every other flow is silently ignored — no record, no filesystem
operation, no exception, sequence counter untouched. -/
theorem response_capture_iff :
    ∀ (cfg : Config) (seq nowMs : Nat) (flow : HTTPFlow),
      (persisted (response cfg fsOk seq nowMs flow) = true ↔
        (flow.request.method = "POST" ∧
         (matchProvider flow.request.prettyHost).isSome = true)) ∧
      ((response cfg fsOk seq nowMs flow).record.isSome = true ↔
        (flow.request.method = "POST" ∧
         (matchProvider flow.request.prettyHost).isSome = true)) ∧
      (¬(flow.request.method = "POST" ∧
         (matchProvider flow.request.prettyHost).isSome = true) →
        response cfg fsOk seq nowMs flow = ⟨false, none, seq, []⟩) := by
  intro cfg seq nowMs flow
  by_cases h : flow.request.method = "POST" ∧
    (matchProvider flow.request.prettyHost).isSome = true
  · obtain ⟨hm, hp⟩ := h
    rcases hps : matchProvider flow.request.prettyHost with _ | p
    · rw [hps] at hp
      simp at hp
    · rw [response_pos cfg fsOk seq nowMs flow p hm hps]
      refine ⟨?_, ?_, ?_⟩
      · refine iff_of_true ?_ ⟨hm, rfl⟩
        simp [persisted, writeCapture_fsOk_eq, isRename]
      · exact iff_of_true (by simp) ⟨hm, rfl⟩
      · intro hc
        exact absurd ⟨hm, rfl⟩ hc
  · rw [response_neg cfg fsOk seq nowMs flow h]
    exact ⟨iff_of_false (by simp [persisted]) h,
           iff_of_false (by simp) h, fun _ => rfl⟩

/-- Witness for C2 at a concrete flow: the GET variant of a flow to
`api.anthropic.com` is ignored with no side effect. -/
theorem response_capture_iff_witness :
    response exampleCfg fsOk 0 0 getFlow = ⟨false, none, 0, []⟩ :=
  (response_capture_iff exampleCfg 0 0 getFlow).2.2 (by decide)

/-- C4 is refuted as stated: a flow whose request-body JSON decoding raises is
not dropped — the exception is caught locally, and a capture record is still
assembled and persisted. -/
theorem response_decode_failure_not_dropped :
    decodeFailFlow.request.textJson = Except.error () ∧
    (response exampleCfg fsOk 0 0 decodeFailFlow).raised = false ∧
    persisted (response exampleCfg fsOk 0 0 decodeFailFlow) = true ∧
    (response exampleCfg fsOk 0 0 decodeFailFlow).record.isSome = true := by
  have hpos := response_pos exampleCfg fsOk 0 0 decodeFailFlow "anthropic"
    rfl (by decide)
  refine ⟨rfl, ?_, ?_, ?_⟩
  · rw [hpos]
  · rw [hpos]
    simp [persisted, writeCapture_fsOk_eq, isRename]
  · rw [hpos]
    rfl

/-- C4 amended: decode failures are caught locally and only degrade the
corresponding record field while the capture still proceeds; persistence
failures are caught at the `_write_capture` call site and lose the capture
(no rename is performed); in all cases the handler returns without raising. -/
theorem response_error_policy :
    (∀ (cfg : Config) (fs : FSBehavior) (seq nowMs : Nat) (flow : HTTPFlow),
      (response cfg fs seq nowMs flow).raised = false) ∧
    (∀ (cfg : Config) (seq nowMs : Nat) (flow : HTTPFlow) (r : CaptureRecord),
      (response cfg fsOk seq nowMs flow).record = some r →
      flow.request.textJson = Except.error () → r.requestBody = none) ∧
    (∀ (cfg : Config) (fs : FSBehavior) (seq nowMs : Nat) (flow : HTTPFlow),
      fs.renameOk = false →
      persisted (response cfg fs seq nowMs flow) = false) := by
  refine ⟨?_, ?_, ?_⟩
  · intro cfg fs seq nowMs flow
    by_cases hm : flow.request.method = "POST"
    · rcases hp : matchProvider flow.request.prettyHost with _ | p
      · simp [response, hm, hp]
      · rw [response_pos cfg fs seq nowMs flow p hm hp]
    · simp [response, hm]
  · intro cfg seq nowMs flow r hr htext
    by_cases hm : flow.request.method = "POST"
    · rcases hp : matchProvider flow.request.prettyHost with _ | p
      · rw [response_neg cfg fsOk seq nowMs flow (by simp [hm, hp])] at hr
        simp at hr
      · rw [response_pos cfg fsOk seq nowMs flow p hm hp] at hr
        simp only [Option.some.injEq] at hr
        rw [← hr]
        simp [mkCapture, htext]
    · rw [response_neg cfg fsOk seq nowMs flow (by simp [hm])] at hr
      simp at hr
  · intro cfg fs seq nowMs flow hrn
    by_cases hm : flow.request.method = "POST"
    · rcases hp : matchProvider flow.request.prettyHost with _ | p
      · rw [response_neg cfg fs seq nowMs flow (by simp [hm, hp])]
        simp [persisted]
      · rw [response_pos cfg fs seq nowMs flow p hm hp]
        rcases fs with ⟨mk, wr, rn⟩
        simp only at hrn
        subst hrn
        cases mk <;> cases wr <;> simp [persisted, writeCapture, isRename]
    · rw [response_neg cfg fs seq nowMs flow (by simp [hm])]
      simp [persisted]

/-- Witness for C4's amended statement at concrete inputs: the handler
returns without raising on a flow whose request decode fails, the degraded
record stores no request body, and with a failing rename nothing is
persisted. -/
theorem response_error_policy_witness :
    (response exampleCfg fsOk 0 0 decodeFailFlow).raised = false ∧
    (mkCapture exampleCfg 0 decodeFailFlow "anthropic").requestBody = none ∧
    persisted (response exampleCfg ⟨true, true, false⟩ 0 0 postFlow) = false :=
  ⟨response_error_policy.1 exampleCfg fsOk 0 0 decodeFailFlow,
   response_error_policy.2.1 exampleCfg 0 0 decodeFailFlow
     (mkCapture exampleCfg 0 decodeFailFlow "anthropic") rfl rfl,
   response_error_policy.2.2 exampleCfg ⟨true, true, false⟩ 0 0 postFlow rfl⟩

/-- C5 is refuted as stated: when response-text decoding raises, the
content-type check inside the same `try` block is skipped, so a flow whose
response declares `text/event-stream` is still recorded with
`responseIsStreaming = false` (and empty `responseBody`) — streaming status is
not determined independently of body decoding. -/
theorem streaming_not_independent :
    strContains (headerGet respFailFlow.response.headers "content-type" "")
      "text/event-stream" = true ∧
    respFailFlow.response.text = Except.error () ∧
    (response exampleCfg fsOk 0 0 respFailFlow).record.map
      CaptureRecord.responseIsStreaming = some false ∧
    (response exampleCfg fsOk 0 0 respFailFlow).record.map
      CaptureRecord.responseBody = some "" := by
  have hpos := response_pos exampleCfg fsOk 0 0 respFailFlow "anthropic"
    rfl (by decide)
  refine ⟨by decide, rfl, ?_, ?_⟩
  · rw [hpos]
    rfl
  · rw [hpos]
    rfl

/-- C5 amended: when response-text decoding succeeds, `responseIsStreaming` is
true iff the content-type header contains `text/event-stream`; when decoding
raises, `responseBody` is the empty string and `responseIsStreaming` is false
(the content-type is not consulted). -/
theorem streaming_from_content_type :
    ∀ (cfg : Config) (seq nowMs : Nat) (flow : HTTPFlow) (r : CaptureRecord),
      (response cfg fsOk seq nowMs flow).record = some r →
      ((∀ t, flow.response.text = Except.ok t →
        r.responseBody = t ∧
        r.responseIsStreaming =
          strContains (headerGet flow.response.headers "content-type" "")
            "text/event-stream") ∧
       (flow.response.text = Except.error () →
        r.responseBody = "" ∧ r.responseIsStreaming = false)) := by
  intro cfg seq nowMs flow r hr
  by_cases hm : flow.request.method = "POST"
  · rcases hp : matchProvider flow.request.prettyHost with _ | p
    · rw [response_neg cfg fsOk seq nowMs flow (by simp [hm, hp])] at hr
      simp at hr
    · rw [response_pos cfg fsOk seq nowMs flow p hm hp] at hr
      simp only [Option.some.injEq] at hr
      rw [← hr]
      constructor
      · intro t ht
        simp [mkCapture, ht]
      · intro ht
        simp [mkCapture, ht]
  · rw [response_neg cfg fsOk seq nowMs flow (by simp [hm])] at hr
    simp at hr

/-- Witness for C5's amended statement at a concrete flow whose response text
decodes: streaming status equals the content-type test. -/
theorem streaming_from_content_type_witness :
    (mkCapture exampleCfg 0 postFlow "anthropic").responseBody = "data: ok" ∧
    (mkCapture exampleCfg 0 postFlow "anthropic").responseIsStreaming =
      strContains (headerGet postFlow.response.headers "content-type" "")
        "text/event-stream" :=
  (streaming_from_content_type exampleCfg 0 0 postFlow
    (mkCapture exampleCfg 0 postFlow "anthropic") rfl).1 "data: ok" rfl

/-- C9 is refuted as stated: two captures of the same flow assembled at
wall-clock instants 0 ms and 999 ms — instants with different millisecond
components — carry identical `timestamp` fields, because the format string
hardcodes `.000`: the timestamp has second precision, not millisecond. -/
theorem timestamp_not_millisecond :
    ((response exampleCfg fsOk 0 0 postFlow).record.map
        CaptureRecord.timestamp =
      (response exampleCfg fsOk 0 999 postFlow).record.map
        CaptureRecord.timestamp) ∧
    (response exampleCfg fsOk 0 0 postFlow).record.map
      CaptureRecord.timestamp = some "1970-01-01T00:00:00.000Z" ∧
    (0 : Nat) % 1000 ≠ 999 % 1000 := by
  have h0 := response_pos exampleCfg fsOk 0 0 postFlow "anthropic"
    rfl (by decide)
  have h999 := response_pos exampleCfg fsOk 0 999 postFlow "anthropic"
    rfl (by decide)
  refine ⟨?_, ?_, by decide⟩
  · rw [h0, h999]
    simp only [Option.map_some']
    constructor
  · rw [h0]
    simp only [Option.map_some']
    constructor

/-- C9 amended: the `timestamp` field records the capture-time wall clock in
UTC at second precision: it depends only on the wall clock's whole seconds,
always ends in the literal `.000Z`, and renders the UTC civil time of the
capture instant. -/
theorem captureTimestamp_seconds :
    (∀ ms ms' : Nat, ms / 1000 = ms' / 1000 →
      captureTimestamp ms = captureTimestamp ms') ∧
    (∀ ms : Nat, captureTimestamp ms = gmtimeFormat (ms / 1000) ++ ".000Z") ∧
    (∀ (cfg : Config) (seq nowMs : Nat) (flow : HTTPFlow) (r : CaptureRecord),
      (response cfg fsOk seq nowMs flow).record = some r →
      r.timestamp = captureTimestamp nowMs) ∧
    captureTimestamp 1700000000999 = "2023-11-14T22:13:20.000Z" := by
  refine ⟨?_, fun ms => rfl, ?_, by decide⟩
  · intro ms ms' h
    unfold captureTimestamp
    rw [h]
  · intro cfg seq nowMs flow r hr
    by_cases hm : flow.request.method = "POST"
    · rcases hp : matchProvider flow.request.prettyHost with _ | p
      · rw [response_neg cfg fsOk seq nowMs flow (by simp [hm, hp])] at hr
        simp at hr
      · rw [response_pos cfg fsOk seq nowMs flow p hm hp] at hr
        simp only [Option.some.injEq] at hr
        rw [← hr]
        rfl
    · rw [response_neg cfg fsOk seq nowMs flow (by simp [hm])] at hr
      simp at hr

/-- Witness for C9's amended statement: two instants in the same second give
the same timestamp, and a concrete record carries the capture-time stamp. -/
theorem captureTimestamp_seconds_witness :
    captureTimestamp 1000 = captureTimestamp 1999 :=
  captureTimestamp_seconds.1 1000 1999 (by decide)

/-- C10 is refuted as stated: with a filesystem on which the temp-file write
raises, `_write_capture` raises (the capture is lost — no rename happens), yet
the sequence counter, read at 0, has still been advanced to 1: a capture
attempt whose persistence fails does consume a sequence number. -/
theorem seq_consumed_on_failed_write :
    (writeCapture fsWriteFails "/captures" 0 0 JValue.null "copilot" "").1
      = true ∧
    (writeCapture fsWriteFails "/captures" 0 0 JValue.null "copilot" "").2.1
      = 1 ∧
    ((writeCapture fsWriteFails "/captures" 0 0 JValue.null
      "copilot" "").2.2.any isRename) = false :=
  ⟨rfl, rfl, rfl⟩

/-- C10 amended: the process-wide sequence counter starts at zero, never
decreases (each call leaves it unchanged or adds one), and is incremented
exactly once per capture attempt that gets past directory creation — the
increment precedes the file write, so an attempt whose write or rename fails
still consumes a sequence number; only a directory-creation failure (or a
skipped flow) leaves the counter untouched. -/
theorem seq_counter_spec :
    SEQ_INIT = 0 ∧
    (∀ (fs : FSBehavior) (dir : String) (seq now : Nat) (cap : JValue)
      (src sid : String),
      (writeCapture fs dir seq now cap src sid).2.1 = seq ∨
      (writeCapture fs dir seq now cap src sid).2.1 = seq + 1) ∧
    (∀ (fs : FSBehavior) (dir : String) (seq now : Nat) (cap : JValue)
      (src sid : String), fs.mkdirOk = true →
      (writeCapture fs dir seq now cap src sid).2.1 = seq + 1) ∧
    (∀ (fs : FSBehavior) (dir : String) (seq now : Nat) (cap : JValue)
      (src sid : String), fs.mkdirOk = false →
      (writeCapture fs dir seq now cap src sid).2.1 = seq) ∧
    (∀ (cfg : Config) (fs : FSBehavior) (seq now : Nat) (flow : HTTPFlow),
      (response cfg fs seq now flow).seq = seq ∨
      (response cfg fs seq now flow).seq = seq + 1) := by
  refine ⟨rfl, ?_, ?_, ?_, ?_⟩
  · intro fs dir seq now cap src sid
    rw [writeCapture_seq]
    by_cases h : fs.mkdirOk = true
    · right
      rw [if_pos h]
    · left
      rw [if_neg h]
  · intro fs dir seq now cap src sid h
    rw [writeCapture_seq, if_pos h]
  · intro fs dir seq now cap src sid h
    rw [writeCapture_seq, if_neg (by simp [h])]
  · intro cfg fs seq now flow
    by_cases hm : flow.request.method = "POST"
    · rcases hp : matchProvider flow.request.prettyHost with _ | p
      · left
        rw [response_neg cfg fs seq now flow (by simp [hm, hp])]
      · rw [response_pos cfg fs seq now flow p hm hp]
        simp only
        rw [writeCapture_seq]
        by_cases h : fs.mkdirOk = true
        · right
          rw [if_pos h]
        · left
          rw [if_neg h]
    · left
      rw [response_neg cfg fs seq now flow (by simp [hm])]

/-- Witness for C10's amended statement: a failing write under a successful
directory creation still advances the counter from 0 to 1. -/
theorem seq_counter_spec_witness :
    (writeCapture fsWriteFails "/tmp" 0 0 JValue.null "src" "").2.1 = 0 + 1 :=
  seq_counter_spec.2.2.1 fsWriteFails "/tmp" 0 0 JValue.null "src" "" rfl

/-- C1 (routing mode, modelled from the spec since the routing addon is not
under `src/`): with a forwarding base URL configured the destination becomes
`{forwardingBaseUrl}/{source}[/{sessionId}]{originalPath}` (session segment
omitted when no session id is set); with it unset the destination is
unmodified. -/
theorem rewriteDestination_correct :
    (∀ src sid path url : String,
      rewriteDestination "" src sid path url = url) ∧
    (∀ base src sid path url : String, base ≠ "" →
      rewriteDestination base src sid path url =
        base ++ "/" ++ src ++ (if sid = "" then "" else "/" ++ sid) ++ path) ∧
    rewriteDestination "https://proxy.example" "copilot" "abcd1234"
      "/v1/chat/completions" "https://api.openai.com/v1/chat/completions" =
      "https://proxy.example/copilot/abcd1234/v1/chat/completions" ∧
    rewriteDestination "https://proxy.example" "copilot" ""
      "/v1/chat/completions" "https://api.openai.com/v1/chat/completions" =
      "https://proxy.example/copilot/v1/chat/completions" := by
  refine ⟨fun src sid path url => rfl, ?_, by decide, by decide⟩
  intro base src sid path url hb
  unfold rewriteDestination
  rw [if_neg hb]

/-- Witness for C1 at concrete inputs with a configured base URL. -/
theorem rewriteDestination_correct_witness :
    rewriteDestination "https://proxy.example" "tool" "sess" "/p" "u" =
      "https://proxy.example" ++ "/" ++ "tool" ++
        (if ("sess" : String) = "" then "" else "/" ++ "sess") ++ "/p" :=
  rewriteDestination_correct.2.1 "https://proxy.example" "tool" "sess" "/p" "u"
    (by decide)
